import Mathlib

/-! BLE packet scanner (`applications_user/ble_reciever/ble_reciever_app.c`).

A shallow embedding of the scan controller of the BLE packet scanner
application and the properties of its start/stop lifecycle, of one poll and of
the run loop.

Conventions of the embedding.

* A C function `void f(BlePacketScannerApp* app)` becomes a function from the
  app structure to the pair of the app structure after the call and the list
  of calls into the firmware API that it made, in program order.
* A value returned by the firmware API (`furi_hal_bt_get_rssi`,
  `furi_hal_bt_stop_packet_test`) is an argument of the function that reads
  it.  The declarations of these two functions are not part of the source
  file; their results are taken as integers, and the assignment to a
  `uint8_t` or `uint16_t` field reduces them modulo `2^8` or `2^16`.
* Pointers to objects owned by the firmware (`FuriMutex*`, `ViewDispatcher*`)
  are natural numbers; the `FuriString*` status string is its text.
-/

namespace BleReciever

/-! ## Data model -/

/-- The structure `BlePacketScannerApp` (source lines 7 to 16). -/
structure BlePacketScannerApp where
  /-- The field `FuriMutex* core2_mtx`, a handle. -/
  core2_mtx : Nat
  /-- The field `bool is_scanning`. -/
  is_scanning : Bool
  /-- The field `uint8_t rssi`, a value in `0..255`. -/
  rssi : Nat
  /-- The field `uint8_t packet_data[255]`. -/
  packet_data : List Nat
  /-- The field `uint16_t packet_count`, a value in `0..65535`. -/
  packet_count : Nat
  /-- The text held by `FuriString* status_string`. -/
  status_string : String
  /-- The field `ViewDispatcher* view_dispatcher`, a handle. -/
  view_dispatcher : Nat
deriving DecidableEq, Repr

/-- The constant `EVENT_STOP` (source line 18). -/
def EVENT_STOP : Nat := 1

/-- The constant `EVENT_UPDATE_DISPLAY` (source line 50). -/
def EVENT_UPDATE_DISPLAY : Nat := 2

/-- The calls into the firmware API that the program can make.  The two mutex
calls are part of the firmware API for a `FuriMutex*`; they are listed so that
properties about the lock can be stated over a list of calls. -/
inductive Effect where
  | furi_hal_bt_init
  | furi_hal_bt_start_radio_stack
  | furi_hal_bt_start_packet_rx (channel rate : Nat)
  | furi_hal_bt_stop_rx
  | furi_hal_bt_get_rssi
  | furi_hal_bt_stop_packet_test
  | furi_log_i (rssi packet_count : Nat)
  | view_dispatcher_send_custom_event (view_dispatcher event : Nat)
  | furi_delay_ms (ms : Nat)
  | furi_mutex_acquire (mtx : Nat)
  | furi_mutex_release (mtx : Nat)
  | free_app
deriving DecidableEq, Repr

/-- The result of a C function on the app: the app afterwards and the calls
made. -/
abbrev Outcome := BlePacketScannerApp × List Effect

/-- Sequential composition of two functions on the app: the calls of the
second follow the calls of the first. -/
def and_then (f g : BlePacketScannerApp → Outcome) (app : BlePacketScannerApp) : Outcome :=
  ((g (f app).1).1, (f app).2 ++ (g (f app).1).2)

/-- Conversion of an integer to `uint8_t`. -/
def to_uint8 (v : Int) : Nat := (v % 256).toNat

/-- Conversion of an integer to `uint16_t`. -/
def to_uint16 (v : Int) : Nat := (v % 65536).toNat

/-- The two's complement reading of a byte as a signed 8-bit value. -/
def as_int8 (b : Nat) : Int := if b < 128 then (b : Int) else (b : Int) - 256

/-! ## Operations -/

/-- The function `ble_packet_scanner_start` (source lines 20 to 27). -/
def ble_packet_scanner_start (app : BlePacketScannerApp) : Outcome :=
  if !app.is_scanning then
    ({ app with is_scanning := true }, [Effect.furi_hal_bt_start_packet_rx 37 1])
  else
    (app, [])

/-- The function `ble_packet_scanner_stop` (source lines 29 to 34). -/
def ble_packet_scanner_stop (app : BlePacketScannerApp) : Outcome :=
  if app.is_scanning then
    ({ app with is_scanning := false }, [Effect.furi_hal_bt_stop_rx])
  else
    (app, [])

/-- The function `ble_packet_scanner_process_packet` (source lines 36 to 48);
`rssi_ret` is what `furi_hal_bt_get_rssi` returned and `count_ret` what
`furi_hal_bt_stop_packet_test` returned. -/
def ble_packet_scanner_process_packet (rssi_ret count_ret : Int)
    (app : BlePacketScannerApp) : Outcome :=
  let app1 := { app with rssi := to_uint8 rssi_ret }
  let app2 := { app1 with packet_count := to_uint16 count_ret }
  (app2, [Effect.furi_hal_bt_get_rssi, Effect.furi_hal_bt_stop_packet_test,
          Effect.furi_log_i app2.rssi app2.packet_count])

/-- The text written by `furi_string_printf` with the format
`"RSSI: %d dBm\nPackets: %d"`: both arguments are unsigned fields promoted to
`int`, so they print as their decimal value. -/
def status_text (rssi packet_count : Nat) : String :=
  "RSSI: " ++ toString rssi ++ " dBm\nPackets: " ++ toString packet_count

/-- The function `ble_packet_scanner_update_display` (source lines 52 to 59). -/
def ble_packet_scanner_update_display (app : BlePacketScannerApp) : Outcome :=
  ({ app with status_string := status_text app.rssi app.packet_count },
   [Effect.view_dispatcher_send_custom_event app.view_dispatcher EVENT_UPDATE_DISPLAY])

/-- The function `ble_packet_scanner_custom_event_callback` (source lines 61 to
68): the outcome on the app and the returned boolean. -/
def ble_packet_scanner_custom_event_callback (app : BlePacketScannerApp) (event : Nat) :
    Outcome × Bool :=
  if event = EVENT_STOP then
    (ble_packet_scanner_stop app, true)
  else
    ((app, []), true)

/-- The function `ble_packet_scanner_app_init` (source lines 77 to 97).  The
argument `mem` is the content of the memory returned by `malloc`, which is not
cleared: the fields `core2_mtx` and `packet_data` keep it.  The argument `vd`
is the handle returned by `view_dispatcher_alloc`; `furi_string_alloc` gives
an empty string.  The registration of the callback with the view dispatcher
is what makes `callback` steps possible in the run loop below. -/
def ble_packet_scanner_app_init (mem : BlePacketScannerApp) (vd : Nat) : Outcome :=
  ({ mem with is_scanning := false, packet_count := 0, rssi := 0,
              status_string := "", view_dispatcher := vd },
   [Effect.furi_hal_bt_init, Effect.furi_hal_bt_start_radio_stack])

/-- One poll, the body of the loop of `ble_packet_scanner_run` without the
delay (source lines 107 to 109): `ble_packet_scanner_process_packet` followed
by `ble_packet_scanner_update_display`. -/
def poll_once (rssi_ret count_ret : Int) : BlePacketScannerApp → Outcome :=
  and_then (ble_packet_scanner_process_packet rssi_ret count_ret)
    ble_packet_scanner_update_display

/-- A memory content used to evaluate the definitions on a concrete input. -/
def blank_mem : BlePacketScannerApp :=
  { core2_mtx := 0, is_scanning := true, rssi := 171, packet_data := [],
    packet_count := 43981, status_string := "", view_dispatcher := 0 }

/-! ## Sequences of calls -/

/-- The two lifecycle calls a client can make on the scan controller. -/
inductive Call where
  | start
  | stop
deriving DecidableEq, Repr

/-- The C function a lifecycle call stands for. -/
def Call.apply : Call → BlePacketScannerApp → Outcome
  | Call.start => ble_packet_scanner_start
  | Call.stop => ble_packet_scanner_stop

/-- The app after a sequence of lifecycle calls, made from left to right. -/
def apply_calls : List Call → BlePacketScannerApp → BlePacketScannerApp
  | [], app => app
  | c :: cs, app => apply_calls cs (c.apply app).1

/-- A call is effective on an app when it changes the app. -/
def Call.is_effective (c : Call) (app : BlePacketScannerApp) : Bool :=
  decide ((c.apply app).1 ≠ app)

/-- The number of effective calls of the given kind in a sequence of calls
made from the given app. -/
def effective_count (kind : Call) : List Call → BlePacketScannerApp → Nat
  | [], _ => 0
  | c :: cs, app =>
    (if c = kind ∧ c.is_effective app = true then 1 else 0)
      + effective_count kind cs (c.apply app).1

/-- A sequence of polls, one for each radio sample `(rssi, packet_count)`. -/
def run_polls : List (Int × Int) → BlePacketScannerApp → Outcome
  | [], app => (app, [])
  | s :: ss, app => and_then (poll_once s.1 s.2) (run_polls ss) app

/-- The call `ble_packet_scanner_start` followed by one poll for each sample. -/
def start_then_polls (samples : List (Int × Int)) : BlePacketScannerApp → Outcome :=
  and_then ble_packet_scanner_start (run_polls samples)

/-- Whether a call is the custom event `EVENT_UPDATE_DISPLAY`. -/
def Effect.is_status_changed : Effect → Bool
  | Effect.view_dispatcher_send_custom_event _ event => decide (event = EVENT_UPDATE_DISPLAY)
  | _ => false

/-- Whether a call sends a custom event, of any code. -/
def Effect.is_custom_event : Effect → Bool
  | Effect.view_dispatcher_send_custom_event _ _ => true
  | _ => false

/-- Whether a call is a call into the radio driver (`furi_hal_bt_*`). -/
def Effect.is_radio : Effect → Bool
  | Effect.furi_hal_bt_init => true
  | Effect.furi_hal_bt_start_radio_stack => true
  | Effect.furi_hal_bt_start_packet_rx _ _ => true
  | Effect.furi_hal_bt_stop_rx => true
  | Effect.furi_hal_bt_get_rssi => true
  | Effect.furi_hal_bt_stop_packet_test => true
  | _ => false

/-- Whether a call switches the receiver on or off. -/
def Effect.is_radio_switch : Effect → Bool
  | Effect.furi_hal_bt_start_packet_rx _ _ => true
  | Effect.furi_hal_bt_stop_rx => true
  | _ => false

/-- Whether a call acquires or releases a mutex. -/
def Effect.is_mutex : Effect → Bool
  | Effect.furi_mutex_acquire _ => true
  | Effect.furi_mutex_release _ => true
  | _ => false

/-- Whether the mutex `mtx` is held at the end of a list of calls: it is held
from a `furi_mutex_acquire` to the next `furi_mutex_release`. -/
def lock_held (mtx : Nat) (calls : List Effect) : Bool :=
  calls.foldl
    (fun held e =>
      if e = Effect.furi_mutex_acquire mtx then true
      else if e = Effect.furi_mutex_release mtx then false
      else held)
    false

/-! ## Errors -/

/-- The error kinds named by the specification. -/
inductive ScanError where
  | HardwareFault
  | InvalidTransition
deriving DecidableEq, Repr

/-- What the caller of `ble_packet_scanner_start` receives when the receiver
did (`radio_ok = true`) or did not (`radio_ok = false`) start.  The function
has return type `void` and calls `furi_hal_bt_start_packet_rx(37, 1)` as a
statement, after the assignment to `is_scanning`: the result of the radio is
not read, and no error is returned. -/
def start_with_radio (radio_ok : Bool) (app : BlePacketScannerApp) :
    Outcome × Option ScanError :=
  match radio_ok with
  | true => (ble_packet_scanner_start app, none)
  | false => (ble_packet_scanner_start app, none)

/-! ## The run loop -/

/-- The control points of `ble_packet_scanner_run` (source lines 99 to 116),
with the bodies of `ble_packet_scanner_process_packet` and
`ble_packet_scanner_update_display` unfolded into their statements. -/
inductive Loc where
  /-- Line 104, before `ble_packet_scanner_start(app)`. -/
  | start_call
  /-- Line 106, the test `while(app->is_scanning)`. -/
  | loop_check
  /-- Line 37, `app->rssi = furi_hal_bt_get_rssi()`. -/
  | get_rssi
  /-- Line 39, `app->packet_count = furi_hal_bt_stop_packet_test()`. -/
  | stop_packet_test
  /-- Line 43, `FURI_LOG_I(...)`. -/
  | log
  /-- Line 54, `furi_string_printf(...)`. -/
  | printf
  /-- Line 58, `view_dispatcher_send_custom_event(...)`. -/
  | send_event
  /-- Line 110, `furi_delay_ms(500)`. -/
  | delay
  /-- Line 113, the `ble_packet_scanner_stop(app)` after the loop. -/
  | final_stop
  /-- Line 114, `free(app)`. -/
  | free
  /-- Line 115, `return 0` has been executed. -/
  | returned
deriving DecidableEq, Repr

/-- A state of the run: control point, app and the calls made so far. -/
structure RunState where
  loc : Loc
  app : BlePacketScannerApp
  trace : List Effect
deriving DecidableEq, Repr

/-- One statement of `ble_packet_scanner_run`, executed at the current control
point.  `hal_ret` is the value returned by the firmware call of the statement,
when it has one that is read. -/
def prog_step (hal_ret : Int) (s : RunState) : RunState :=
  match s.loc with
  | Loc.start_call =>
    { loc := Loc.loop_check, app := (ble_packet_scanner_start s.app).1,
      trace := s.trace ++ (ble_packet_scanner_start s.app).2 }
  | Loc.loop_check =>
    if s.app.is_scanning then { s with loc := Loc.get_rssi }
    else { s with loc := Loc.final_stop }
  | Loc.get_rssi =>
    { loc := Loc.stop_packet_test, app := { s.app with rssi := to_uint8 hal_ret },
      trace := s.trace ++ [Effect.furi_hal_bt_get_rssi] }
  | Loc.stop_packet_test =>
    { loc := Loc.log, app := { s.app with packet_count := to_uint16 hal_ret },
      trace := s.trace ++ [Effect.furi_hal_bt_stop_packet_test] }
  | Loc.log =>
    { s with loc := Loc.printf,
             trace := s.trace ++ [Effect.furi_log_i s.app.rssi s.app.packet_count] }
  | Loc.printf =>
    { s with loc := Loc.send_event,
             app := { s.app with
                      status_string := status_text s.app.rssi s.app.packet_count } }
  | Loc.send_event =>
    { s with loc := Loc.delay,
             trace := s.trace ++
               [Effect.view_dispatcher_send_custom_event s.app.view_dispatcher
                  EVENT_UPDATE_DISPLAY] }
  | Loc.delay =>
    { s with loc := Loc.loop_check, trace := s.trace ++ [Effect.furi_delay_ms 500] }
  | Loc.final_stop =>
    { loc := Loc.free, app := (ble_packet_scanner_stop s.app).1,
      trace := s.trace ++ (ble_packet_scanner_stop s.app).2 }
  | Loc.free => { s with loc := Loc.returned, trace := s.trace ++ [Effect.free_app] }
  | Loc.returned => s

/-- The delivery of a custom event to `ble_packet_scanner_custom_event_callback`
while the run is at any control point: the control point does not move. -/
def callback_step (event : Nat) (s : RunState) : RunState :=
  { s with app := (ble_packet_scanner_custom_event_callback s.app event).1.1,
           trace := s.trace ++ (ble_packet_scanner_custom_event_callback s.app event).1.2 }

/-- A step of the run: a statement of the program, or the delivery of a custom
event to the callback. -/
inductive Action where
  | prog (hal_ret : Int)
  | callback (event : Nat)
deriving DecidableEq, Repr

/-- Whether a step is a statement of the program. -/
def Action.is_prog : Action → Bool
  | Action.prog _ => true
  | Action.callback _ => false

/-- The step relation of the run, as a function of the action taken. -/
def run_step : Action → RunState → RunState
  | Action.prog hal_ret => prog_step hal_ret
  | Action.callback event => callback_step event

/-- The state after a sequence of steps. -/
def run_exec : List Action → RunState → RunState
  | [], s => s
  | a :: acts, s => run_exec acts (run_step a s)

/-- The state of the run after `ble_packet_scanner_app_init` (line 102). -/
def run_init (mem : BlePacketScannerApp) (vd : Nat) : RunState :=
  { loc := Loc.start_call, app := (ble_packet_scanner_app_init mem vd).1,
    trace := (ble_packet_scanner_app_init mem vd).2 }

/-- The number of statements left before `return 0` from a control point when
the test of the loop fails the next time it is reached. -/
def Loc.rank : Loc → Nat
  | Loc.start_call => 11
  | Loc.get_rssi => 9
  | Loc.stop_packet_test => 8
  | Loc.log => 7
  | Loc.printf => 6
  | Loc.send_event => 5
  | Loc.delay => 4
  | Loc.loop_check => 3
  | Loc.final_stop => 2
  | Loc.free => 1
  | Loc.returned => 0

/-- Whether a control point is between two iterations or after the loop: no
poll is in flight there. -/
def Loc.between_polls : Loc → Bool
  | Loc.loop_check => true
  | Loc.final_stop => true
  | Loc.free => true
  | Loc.returned => true
  | _ => false

end BleReciever

/-! ## Basic facts about the operations -/

namespace BleReciever

theorem start_of_idle (app : BlePacketScannerApp) (h : app.is_scanning = false) :
    ble_packet_scanner_start app =
      ({ app with is_scanning := true }, [Effect.furi_hal_bt_start_packet_rx 37 1]) := by
  simp [ble_packet_scanner_start, h]

theorem start_of_scanning (app : BlePacketScannerApp) (h : app.is_scanning = true) :
    ble_packet_scanner_start app = (app, []) := by
  simp [ble_packet_scanner_start, h]

theorem stop_of_scanning (app : BlePacketScannerApp) (h : app.is_scanning = true) :
    ble_packet_scanner_stop app = ({ app with is_scanning := false }, [Effect.furi_hal_bt_stop_rx]) := by
  simp [ble_packet_scanner_stop, h]

theorem stop_of_idle (app : BlePacketScannerApp) (h : app.is_scanning = false) :
    ble_packet_scanner_stop app = (app, []) := by
  simp [ble_packet_scanner_stop, h]

theorem with_same_flag (app : BlePacketScannerApp) (b : Bool) (h : app.is_scanning = b) :
    { app with is_scanning := b } = app := by
  cases app
  simp_all

theorem with_other_flag (app : BlePacketScannerApp) (b : Bool) (h : app.is_scanning ≠ b) :
    { app with is_scanning := b } ≠ app := by
  intro hEq
  apply h
  rw [← hEq]

/-! ## The start and stop operations -/

/-- Claim C2: calling `ble_packet_scanner_start` twice in a row gives the same
app and the same list of calls as calling it once; from Idle the single call
made is `furi_hal_bt_start_packet_rx(37, 1)` and the app ends in Scanning, from
Scanning no call is made and the app is unchanged. -/
theorem start_twice_eq_start_once (app : BlePacketScannerApp) :
    and_then ble_packet_scanner_start ble_packet_scanner_start app
        = ble_packet_scanner_start app
      ∧ (app.is_scanning = false →
          ble_packet_scanner_start app
              = ({ app with is_scanning := true }, [Effect.furi_hal_bt_start_packet_rx 37 1])
            ∧ and_then ble_packet_scanner_start ble_packet_scanner_start app
              = ({ app with is_scanning := true }, [Effect.furi_hal_bt_start_packet_rx 37 1]))
      ∧ (app.is_scanning = true →
          ble_packet_scanner_start app = (app, [])
            ∧ and_then ble_packet_scanner_start ble_packet_scanner_start app = (app, [])) := by
  cases h : app.is_scanning <;> simp [and_then, ble_packet_scanner_start, h]

/-- Evaluation of `start_twice_eq_start_once` on an Idle app. -/
theorem start_twice_eq_start_once_witness :
    and_then ble_packet_scanner_start ble_packet_scanner_start
        { blank_mem with is_scanning := false }
      = ({ blank_mem with is_scanning := true }, [Effect.furi_hal_bt_start_packet_rx 37 1]) :=
  ((start_twice_eq_start_once { blank_mem with is_scanning := false }).2.1 rfl).2

/-- Claim C3: `ble_packet_scanner_stop` ends in Idle and changes no field other
than `is_scanning`; it calls `furi_hal_bt_stop_rx` exactly once when the app
was Scanning, and makes no call and leaves the app unchanged when it was
Idle. -/
theorem stop_ends_idle (app : BlePacketScannerApp) :
    (ble_packet_scanner_stop app).1.is_scanning = false
      ∧ (ble_packet_scanner_stop app).1 = { app with is_scanning := false }
      ∧ (app.is_scanning = true →
          (ble_packet_scanner_stop app).2 = [Effect.furi_hal_bt_stop_rx])
      ∧ (app.is_scanning = false → ble_packet_scanner_stop app = (app, [])) := by
  cases h : app.is_scanning
  · simp [ble_packet_scanner_stop, h]
    exact (with_same_flag app false h).symm
  · simp [ble_packet_scanner_stop, h]

/-- Evaluation of `stop_ends_idle` on a Scanning app. -/
theorem stop_ends_idle_witness :
    (ble_packet_scanner_stop blank_mem).2 = [Effect.furi_hal_bt_stop_rx] :=
  (stop_ends_idle blank_mem).2.2.1 rfl

/-- Claim C9: the callback with `EVENT_STOP` is `ble_packet_scanner_stop` and
returns `true`: the app becomes Idle and `furi_hal_bt_stop_rx` is called exactly
when the app was Scanning; with `EVENT_UPDATE_DISPLAY` it leaves the app
unchanged, makes no call and returns `true`. -/
theorem callback_stop_and_update (app : BlePacketScannerApp) :
    EVENT_STOP = 1 ∧ EVENT_UPDATE_DISPLAY = 2
      ∧ ble_packet_scanner_custom_event_callback app EVENT_STOP
          = (ble_packet_scanner_stop app, true)
      ∧ (ble_packet_scanner_custom_event_callback app EVENT_STOP).1.1.is_scanning = false
      ∧ (ble_packet_scanner_custom_event_callback app EVENT_STOP).1.2
          = (if app.is_scanning then [Effect.furi_hal_bt_stop_rx] else [])
      ∧ ble_packet_scanner_custom_event_callback app EVENT_UPDATE_DISPLAY
          = ((app, []), true) := by
  refine ⟨rfl, rfl, ?_, ?_, ?_, ?_⟩
  · simp [ble_packet_scanner_custom_event_callback]
  · cases h : app.is_scanning <;>
      simp [ble_packet_scanner_custom_event_callback, ble_packet_scanner_stop, h]
  · cases h : app.is_scanning <;>
      simp [ble_packet_scanner_custom_event_callback, ble_packet_scanner_stop, h]
  · simp [ble_packet_scanner_custom_event_callback, EVENT_STOP, EVENT_UPDATE_DISPLAY]

end BleReciever

/-! ## Sequences of start and stop calls -/

namespace BleReciever

theorem start_effective (app : BlePacketScannerApp) :
    Call.is_effective Call.start app = !app.is_scanning := by
  cases h : app.is_scanning
  · have hne := with_other_flag app true (by simp [h])
    simp [Call.is_effective, Call.apply, ble_packet_scanner_start, h, hne]
  · simp [Call.is_effective, Call.apply, ble_packet_scanner_start, h]

theorem stop_effective (app : BlePacketScannerApp) :
    Call.is_effective Call.stop app = app.is_scanning := by
  cases h : app.is_scanning
  · simp [Call.is_effective, Call.apply, ble_packet_scanner_stop, h]
  · have hne := with_other_flag app false (by simp [h])
    simp [Call.is_effective, Call.apply, ble_packet_scanner_stop, h, hne]

/-- The balance of effective calls: the flag after the calls, counted as 0 or
1, plus the effective stops equals the flag before plus the effective
starts. -/
theorem effective_balance (cs : List Call) (app : BlePacketScannerApp) :
    (if (apply_calls cs app).is_scanning then 1 else 0) + effective_count Call.stop cs app
      = (if app.is_scanning then 1 else 0) + effective_count Call.start cs app := by
  induction cs generalizing app with
  | nil => simp [apply_calls, effective_count]
  | cons c cs ih =>
    have step := ih (c.apply app).1
    cases c
    · simp only [apply_calls, effective_count, start_effective] at step ⊢
      cases h : app.is_scanning
      · simp [Call.apply, ble_packet_scanner_start, h] at step ⊢
        omega
      · simp [Call.apply, ble_packet_scanner_start, h] at step ⊢
        omega
    · simp only [apply_calls, effective_count, stop_effective] at step ⊢
      cases h : app.is_scanning
      · simp [Call.apply, ble_packet_scanner_stop, h] at step ⊢
        omega
      · simp [Call.apply, ble_packet_scanner_stop, h] at step ⊢
        omega

/-- Claim C1: from a freshly initialised app (Idle), after every initial
segment `cs.take k` of every sequence `cs` of start and stop calls, the app is
Scanning if and only if the effective starts outnumber the effective stops;
the effective stops never outnumber the effective starts and the difference is
0 or 1; a stop on an Idle app is not effective and leaves it Idle. -/
theorem scanning_iff_more_effective_starts (mem : BlePacketScannerApp) (vd : Nat)
    (cs : List Call) (k : Nat) :
    (ble_packet_scanner_app_init mem vd).1.is_scanning = false
      ∧ ((apply_calls (cs.take k) (ble_packet_scanner_app_init mem vd).1).is_scanning = true
          ↔ effective_count Call.stop (cs.take k) (ble_packet_scanner_app_init mem vd).1
              < effective_count Call.start (cs.take k) (ble_packet_scanner_app_init mem vd).1)
      ∧ effective_count Call.stop (cs.take k) (ble_packet_scanner_app_init mem vd).1
          ≤ effective_count Call.start (cs.take k) (ble_packet_scanner_app_init mem vd).1
      ∧ effective_count Call.start (cs.take k) (ble_packet_scanner_app_init mem vd).1
          ≤ effective_count Call.stop (cs.take k) (ble_packet_scanner_app_init mem vd).1 + 1
      ∧ (∀ app : BlePacketScannerApp, app.is_scanning = false →
          Call.is_effective Call.stop app = false
            ∧ (Call.apply Call.stop app).1 = app
            ∧ (Call.apply Call.stop app).1.is_scanning = false) := by
  have h0 : (ble_packet_scanner_app_init mem vd).1.is_scanning = false := rfl
  have bal := effective_balance (cs.take k) (ble_packet_scanner_app_init mem vd).1
  rw [h0] at bal
  refine ⟨h0, ?_, ?_, ?_, ?_⟩
  · cases h : (apply_calls (cs.take k) (ble_packet_scanner_app_init mem vd).1).is_scanning
    · simp [h] at bal ⊢
      omega
    · simp [h] at bal ⊢
      omega
  · cases h : (apply_calls (cs.take k) (ble_packet_scanner_app_init mem vd).1).is_scanning
    · simp [h] at bal
      omega
    · simp [h] at bal
      omega
  · cases h : (apply_calls (cs.take k) (ble_packet_scanner_app_init mem vd).1).is_scanning
    · simp [h] at bal
      omega
    · simp [h] at bal
      omega
  · intro app h
    refine ⟨?_, ?_, ?_⟩
    · rw [stop_effective, h]
    · simp [Call.apply, ble_packet_scanner_stop, h]
    · simp [Call.apply, ble_packet_scanner_stop, h]

/-- Evaluation of `scanning_iff_more_effective_starts` on the sequence start,
start, stop, stop, start cut after four calls: the app is Idle, with one
effective start and one effective stop. -/
theorem scanning_iff_more_effective_starts_witness :
    ((apply_calls ([Call.start, Call.start, Call.stop, Call.stop, Call.start].take 4)
          (ble_packet_scanner_app_init blank_mem 7).1).is_scanning = true
        ↔ effective_count Call.stop
            ([Call.start, Call.start, Call.stop, Call.stop, Call.start].take 4)
            (ble_packet_scanner_app_init blank_mem 7).1
          < effective_count Call.start
            ([Call.start, Call.start, Call.stop, Call.stop, Call.start].take 4)
            (ble_packet_scanner_app_init blank_mem 7).1)
      ∧ (Call.apply Call.stop { blank_mem with is_scanning := false }).1
          = { blank_mem with is_scanning := false } :=
  ⟨(scanning_iff_more_effective_starts blank_mem 7
      [Call.start, Call.start, Call.stop, Call.stop, Call.start] 4).2.1,
   ((scanning_iff_more_effective_starts blank_mem 7 [] 0).2.2.2.2
      { blank_mem with is_scanning := false } rfl).2.1⟩

end BleReciever

/-! ## One poll -/

namespace BleReciever

theorem poll_once_eq (rssi_ret count_ret : Int) (app : BlePacketScannerApp) :
    poll_once rssi_ret count_ret app =
      ({ app with rssi := to_uint8 rssi_ret, packet_count := to_uint16 count_ret,
                  status_string := status_text (to_uint8 rssi_ret) (to_uint16 count_ret) },
       [Effect.furi_hal_bt_get_rssi, Effect.furi_hal_bt_stop_packet_test,
        Effect.furi_log_i (to_uint8 rssi_ret) (to_uint16 count_ret),
        Effect.view_dispatcher_send_custom_event app.view_dispatcher EVENT_UPDATE_DISPLAY]) := by
  rfl

/-- The five statements of the loop body, run from its first statement without
an intervening callback, are one poll. -/
theorem poll_steps (rssi_ret count_ret x y z : Int) (s : RunState)
    (h : s.loc = Loc.get_rssi) :
    run_exec [Action.prog rssi_ret, Action.prog count_ret, Action.prog x, Action.prog y,
        Action.prog z] s
      = { loc := Loc.delay, app := (poll_once rssi_ret count_ret s.app).1,
          trace := s.trace ++ (poll_once rssi_ret count_ret s.app).2 } := by
  cases s with
  | mk loc app trace =>
    simp only at h
    subst h
    simp [run_exec, run_step, prog_step, poll_once_eq]

/-- Claim C4: one poll leaves `is_scanning` as it was; the only fields it
changes are `rssi`, `packet_count` and the status text computed from them; the
only custom event it sends is one `EVENT_UPDATE_DISPLAY`; and the poll is the
body of the run loop. -/
theorem poll_once_frame (app : BlePacketScannerApp) (rssi_ret count_ret : Int) :
    (poll_once rssi_ret count_ret app).1.is_scanning = app.is_scanning
      ∧ (poll_once rssi_ret count_ret app).1
          = { app with rssi := to_uint8 rssi_ret, packet_count := to_uint16 count_ret,
                       status_string :=
                         status_text (to_uint8 rssi_ret) (to_uint16 count_ret) }
      ∧ (poll_once rssi_ret count_ret app).2.filter Effect.is_custom_event
          = [Effect.view_dispatcher_send_custom_event app.view_dispatcher EVENT_UPDATE_DISPLAY]
      ∧ (poll_once rssi_ret count_ret app).2.countP Effect.is_custom_event ≤ 1
      ∧ (∀ (s : RunState) (x y z : Int), s.loc = Loc.get_rssi →
          run_exec [Action.prog rssi_ret, Action.prog count_ret, Action.prog x,
              Action.prog y, Action.prog z] s
            = { loc := Loc.delay, app := (poll_once rssi_ret count_ret s.app).1,
                trace := s.trace ++ (poll_once rssi_ret count_ret s.app).2 }) := by
  refine ⟨rfl, rfl, ?_, ?_, ?_⟩
  · rw [poll_once_eq]
    rfl
  · rw [poll_once_eq]
    exact Nat.le_of_eq rfl
  · intro s x y z h
    exact poll_steps rssi_ret count_ret x y z s h

/-- Evaluation of `poll_once_frame` in the run loop: from the first statement
of the body, the five statements leave the run at the delay with `is_scanning`
unchanged. -/
theorem poll_once_frame_witness :
    (run_exec [Action.prog (-40), Action.prog 1, Action.prog 0, Action.prog 0, Action.prog 0]
        { loc := Loc.get_rssi, app := blank_mem, trace := [] }).app.is_scanning
      = blank_mem.is_scanning :=
  ((poll_once_frame blank_mem (-40) 1).2.2.2.2
      { loc := Loc.get_rssi, app := blank_mem, trace := [] } 0 0 0 rfl) ▸ rfl

end BleReciever

/-! ## Sequences of polls -/

namespace BleReciever

theorem as_int8_to_uint8 (v : Int) (hlo : -128 ≤ v) (hhi : v ≤ 127) :
    as_int8 (to_uint8 v) = v := by
  unfold as_int8 to_uint8
  split <;> omega

theorem to_uint16_of_range (v : Int) (hlo : 0 ≤ v) (hhi : v ≤ 65535) :
    ((to_uint16 v : Nat) : Int) = v := by
  unfold to_uint16
  omega

/-- After a non-empty sequence of polls the statistics are those of the last
sample, converted to the types of the fields. -/
theorem run_polls_last (s : Int × Int) (ss : List (Int × Int)) (app : BlePacketScannerApp) :
    (run_polls (s :: ss) app).1.rssi = to_uint8 ((s :: ss).getLast (by simp)).1
      ∧ (run_polls (s :: ss) app).1.packet_count
          = to_uint16 ((s :: ss).getLast (by simp)).2 := by
  induction ss generalizing s app with
  | nil => exact ⟨rfl, rfl⟩
  | cons t ts ih =>
    have step := ih t (poll_once s.1 s.2 app).1
    simpa [run_polls, and_then, List.getLast_cons_cons] using step

/-- Each poll of a sequence sends one `EVENT_UPDATE_DISPLAY` and no other
custom event. -/
theorem run_polls_events (ss : List (Int × Int)) (app : BlePacketScannerApp) :
    (run_polls ss app).2.countP Effect.is_status_changed = ss.length
      ∧ (run_polls ss app).2.countP Effect.is_custom_event = ss.length := by
  induction ss generalizing app with
  | nil => exact ⟨rfl, rfl⟩
  | cons t ts ih =>
    have step := ih (poll_once t.1 t.2 app).1
    have h1 : (poll_once t.1 t.2 app).2.countP Effect.is_status_changed = 1 := rfl
    have h2 : (poll_once t.1 t.2 app).2.countP Effect.is_custom_event = 1 := rfl
    simp only [run_polls, and_then, List.countP_append, List.length_cons, h1, h2, step]
    omega

theorem start_no_events (app : BlePacketScannerApp) :
    (ble_packet_scanner_start app).2.countP Effect.is_status_changed = 0
      ∧ (ble_packet_scanner_start app).2.countP Effect.is_custom_event = 0 := by
  cases h : app.is_scanning <;>
    simp [ble_packet_scanner_start, h, Effect.is_status_changed, Effect.is_custom_event]

/-- Claim C5: for every non-empty sequence of samples with the rssi in
`-128..127` and the count in `0..65535`, after `ble_packet_scanner_start`
followed by one poll per sample, the stored `rssi` read as a signed 8-bit value
is the rssi of the last sample (the `uint8_t` field itself holding that value
modulo 256), `packet_count` is the count of the last sample, and the number of
`EVENT_UPDATE_DISPLAY` events sent is the number of samples, no other custom
event being sent. -/
theorem polls_store_last_sample (app : BlePacketScannerApp) (samples : List (Int × Int))
    (hne : samples ≠ [])
    (hrange : ∀ s ∈ samples, -128 ≤ s.1 ∧ s.1 ≤ 127 ∧ 0 ≤ s.2 ∧ s.2 ≤ 65535) :
    as_int8 (start_then_polls samples app).1.rssi = (samples.getLast hne).1
      ∧ (start_then_polls samples app).1.rssi = to_uint8 (samples.getLast hne).1
      ∧ (((start_then_polls samples app).1.packet_count : Nat) : Int) = (samples.getLast hne).2
      ∧ (start_then_polls samples app).2.countP Effect.is_status_changed = samples.length
      ∧ (start_then_polls samples app).2.countP Effect.is_custom_event = samples.length := by
  cases samples with
  | nil => exact absurd rfl hne
  | cons s ss =>
    have hlast := run_polls_last s ss (ble_packet_scanner_start app).1
    have hev := run_polls_events (s :: ss) (ble_packet_scanner_start app).1
    have hst := start_no_events app
    have hr := hrange ((s :: ss).getLast hne) (List.getLast_mem hne)
    refine ⟨?_, ?_, ?_, ?_, ?_⟩
    · simp only [start_then_polls, and_then]
      rw [hlast.1]
      exact as_int8_to_uint8 _ hr.1 hr.2.1
    · simp only [start_then_polls, and_then]
      exact hlast.1
    · simp only [start_then_polls, and_then]
      rw [hlast.2]
      exact to_uint16_of_range _ hr.2.2.1 hr.2.2.2
    · simp only [start_then_polls, and_then, List.countP_append, hst.1, hev.1]
      omega
    · simp only [start_then_polls, and_then, List.countP_append, hst.2, hev.2]
      omega

/-- Evaluation of `polls_store_last_sample` on the samples `(-40, 1)`,
`(-42, 5)`, `(-50, 9)`: the signed reading of `rssi` is `-50`, the field holds
`206`, `packet_count` is `9` and three events were sent. -/
theorem polls_store_last_sample_witness :
    as_int8 (start_then_polls [(-40, 1), (-42, 5), (-50, 9)]
        (ble_packet_scanner_app_init blank_mem 7).1).1.rssi = -50
      ∧ (start_then_polls [(-40, 1), (-42, 5), (-50, 9)]
          (ble_packet_scanner_app_init blank_mem 7).1).1.rssi = 206
      ∧ (((start_then_polls [(-40, 1), (-42, 5), (-50, 9)]
          (ble_packet_scanner_app_init blank_mem 7).1).1.packet_count : Nat) : Int) = 9
      ∧ (start_then_polls [(-40, 1), (-42, 5), (-50, 9)]
          (ble_packet_scanner_app_init blank_mem 7).1).2.countP Effect.is_status_changed = 3
      ∧ (start_then_polls [(-40, 1), (-42, 5), (-50, 9)]
          (ble_packet_scanner_app_init blank_mem 7).1).2.countP Effect.is_custom_event = 3 :=
  polls_store_last_sample (ble_packet_scanner_app_init blank_mem 7).1
    [(-40, 1), (-42, 5), (-50, 9)] (by decide) (by decide)

end BleReciever

/-! ## Errors: a failing radio and a poll while Idle -/

namespace BleReciever

/-- Claim C7, as stated, fails: when the receiver does not start, the call of
`ble_packet_scanner_start` on a freshly initialised (Idle) app reports no error
and leaves the app Scanning. -/
theorem start_failure_not_reported :
    (ble_packet_scanner_app_init blank_mem 7).1.is_scanning = false
      ∧ (start_with_radio false (ble_packet_scanner_app_init blank_mem 7).1).2 = none
      ∧ (start_with_radio false (ble_packet_scanner_app_init blank_mem 7).1).2
          ≠ some ScanError.HardwareFault
      ∧ (start_with_radio false (ble_packet_scanner_app_init blank_mem 7).1).1.1.is_scanning
          = true := by
  decide

/-- Claim C7, amended: `ble_packet_scanner_start` does not depend on whether the
receiver started and reports no error; from Idle it always makes the one call
`furi_hal_bt_start_packet_rx(37, 1)` and ends in Scanning. -/
theorem start_ignores_radio_result (radio_ok : Bool) (app : BlePacketScannerApp) :
    start_with_radio radio_ok app = (ble_packet_scanner_start app, none)
      ∧ (app.is_scanning = false →
          (start_with_radio radio_ok app).1
            = ({ app with is_scanning := true }, [Effect.furi_hal_bt_start_packet_rx 37 1])) := by
  refine ⟨?_, ?_⟩
  · cases radio_ok <;> rfl
  · intro h
    cases radio_ok <;> simp [start_with_radio, ble_packet_scanner_start, h]

/-- Evaluation of `start_ignores_radio_result` on an Idle app with a receiver
that did not start. -/
theorem start_ignores_radio_result_witness :
    (start_with_radio false { blank_mem with is_scanning := false }).1
      = ({ blank_mem with is_scanning := true }, [Effect.furi_hal_bt_start_packet_rx 37 1]) :=
  (start_ignores_radio_result false { blank_mem with is_scanning := false }).2 rfl

/-- Claim C8, as stated, fails: on a freshly initialised (Idle) app a poll
with the sample `(-40, 1)` returns normally, changes `rssi` and `packet_count`,
calls the radio twice and sends a custom event. -/
theorem poll_while_idle_not_ignored :
    (ble_packet_scanner_app_init blank_mem 7).1.is_scanning = false
      ∧ (poll_once (-40) 1 (ble_packet_scanner_app_init blank_mem 7).1).1.rssi
          ≠ (ble_packet_scanner_app_init blank_mem 7).1.rssi
      ∧ (poll_once (-40) 1 (ble_packet_scanner_app_init blank_mem 7).1).1.packet_count
          ≠ (ble_packet_scanner_app_init blank_mem 7).1.packet_count
      ∧ (poll_once (-40) 1 (ble_packet_scanner_app_init blank_mem 7).1).2.filter Effect.is_radio
          = [Effect.furi_hal_bt_get_rssi, Effect.furi_hal_bt_stop_packet_test]
      ∧ (poll_once (-40) 1 (ble_packet_scanner_app_init blank_mem 7).1).2.filter
            Effect.is_custom_event
          = [Effect.view_dispatcher_send_custom_event 7 2] := by
  decide

/-- A statement of the program reaches the first statement of the loop body
only from the test of the loop, and only when that test finds
`is_scanning` set. -/
theorem body_entered_from_check (hal_ret : Int) (s : RunState)
    (h : (prog_step hal_ret s).loc = Loc.get_rssi) :
    s.loc = Loc.loop_check ∧ s.app.is_scanning = true := by
  cases s with
  | mk loc app trace =>
    cases loc <;> simp [prog_step] at h ⊢
    · cases hs : app.is_scanning
      · simp [hs] at h
      · rfl

/-- Claim C8, amended: the poll does not test `is_scanning`; on every app,
Idle or Scanning, it stores the sample, makes the two radio calls, logs, sends
one `EVENT_UPDATE_DISPLAY` and leaves `is_scanning` as it was.  In the run loop
the first statement of the poll is reached only from the test of the loop
with `is_scanning` set. -/
theorem poll_does_not_test_scan_state (app : BlePacketScannerApp) (rssi_ret count_ret : Int) :
    (poll_once rssi_ret count_ret app).1.is_scanning = app.is_scanning
      ∧ (poll_once rssi_ret count_ret app).1.rssi = to_uint8 rssi_ret
      ∧ (poll_once rssi_ret count_ret app).1.packet_count = to_uint16 count_ret
      ∧ (poll_once rssi_ret count_ret app).2
          = [Effect.furi_hal_bt_get_rssi, Effect.furi_hal_bt_stop_packet_test,
             Effect.furi_log_i (to_uint8 rssi_ret) (to_uint16 count_ret),
             Effect.view_dispatcher_send_custom_event app.view_dispatcher
               EVENT_UPDATE_DISPLAY]
      ∧ (∀ (hal_ret : Int) (s : RunState), (prog_step hal_ret s).loc = Loc.get_rssi →
          s.loc = Loc.loop_check ∧ s.app.is_scanning = true) :=
  ⟨rfl, rfl, rfl, rfl, fun hal_ret s h => body_entered_from_check hal_ret s h⟩

/-- Evaluation of `poll_does_not_test_scan_state` in the run: the second
statement of a run from a freshly initialised app enters the loop body, and
the app is Scanning there. -/
theorem poll_does_not_test_scan_state_witness :
    (run_exec [Action.prog 0] (run_init blank_mem 7)).loc = Loc.loop_check
      ∧ (run_exec [Action.prog 0] (run_init blank_mem 7)).app.is_scanning = true :=
  (poll_does_not_test_scan_state blank_mem 0 0).2.2.2.2 0
    (run_exec [Action.prog 0] (run_init blank_mem 7)) (by decide)

end BleReciever

/-! ## The run loop: the lock -/

namespace BleReciever

/-- Every step of the run appends calls to the trace, none of them a mutex
call. -/
theorem run_step_trace (a : Action) (s : RunState) :
    ∃ e, (run_step a s).trace = s.trace ++ e ∧ ∀ x ∈ e, Effect.is_mutex x = false := by
  cases s with
  | mk loc app trace =>
    cases a with
    | prog hal_ret =>
      cases loc <;> cases hs : app.is_scanning <;>
        simp [run_step, prog_step, ble_packet_scanner_start, ble_packet_scanner_stop, hs,
          Effect.is_mutex]
    | callback event =>
      by_cases hev : event = EVENT_STOP <;> cases hs : app.is_scanning <;>
        simp [run_step, callback_step, ble_packet_scanner_custom_event_callback,
          ble_packet_scanner_stop, hs, hev, Effect.is_mutex]

theorem run_exec_no_mutex (acts : List Action) (s : RunState)
    (h : ∀ x ∈ s.trace, Effect.is_mutex x = false) :
    ∀ x ∈ (run_exec acts s).trace, Effect.is_mutex x = false := by
  induction acts generalizing s with
  | nil => exact h
  | cons a acts ih =>
    apply ih (run_step a s)
    obtain ⟨e, he, hmu⟩ := run_step_trace a s
    intro x hx
    rw [he, List.mem_append] at hx
    cases hx with
    | inl hl => exact h x hl
    | inr hr => exact hmu x hr

theorem lock_held_of_no_mutex (mtx : Nat) (calls : List Effect)
    (h : ∀ x ∈ calls, Effect.is_mutex x = false) : lock_held mtx calls = false := by
  unfold lock_held
  generalize false = b
  induction calls generalizing b with
  | nil => rfl
  | cons c cs ih =>
    have hc := h c (List.mem_cons_self c cs)
    have hcs : ∀ x ∈ cs, Effect.is_mutex x = false :=
      fun x hx => h x (List.mem_cons_of_mem c hx)
    have h1 : c ≠ Effect.furi_mutex_acquire mtx := by
      intro heq
      rw [heq] at hc
      simp [Effect.is_mutex] at hc
    have h2 : c ≠ Effect.furi_mutex_release mtx := by
      intro heq
      rw [heq] at hc
      simp [Effect.is_mutex] at hc
    simp only [List.foldl_cons, h1, h2, if_false]
    exact ih hcs b

/-- A statement of the program changes `rssi` or `packet_count` only at the
two sampling statements of the loop body. -/
theorem statistics_written_at_sampling (hal_ret : Int) (s : RunState)
    (h : (prog_step hal_ret s).app.rssi ≠ s.app.rssi
      ∨ (prog_step hal_ret s).app.packet_count ≠ s.app.packet_count) :
    s.loc = Loc.get_rssi ∨ s.loc = Loc.stop_packet_test := by
  cases s with
  | mk loc app trace =>
    cases loc <;> cases hs : app.is_scanning <;>
      simp [prog_step, ble_packet_scanner_start, ble_packet_scanner_stop, hs] at h ⊢

/-- Claim C6, as stated, fails: in the run from a freshly initialised app,
after the start call and the test of the loop the mutex `core2_mtx` is not
held, and the next statement writes `rssi`; the calls of a poll contain no
mutex call. -/
theorem statistics_written_without_lock :
    (run_exec [Action.prog 0, Action.prog 0] (run_init blank_mem 7)).loc = Loc.get_rssi
      ∧ lock_held blank_mem.core2_mtx
          (run_exec [Action.prog 0, Action.prog 0] (run_init blank_mem 7)).trace = false
      ∧ (prog_step (-40)
          (run_exec [Action.prog 0, Action.prog 0] (run_init blank_mem 7))).app.rssi
          ≠ (run_exec [Action.prog 0, Action.prog 0] (run_init blank_mem 7)).app.rssi
      ∧ (poll_once (-40) 1 (ble_packet_scanner_app_init blank_mem 7).1).2.filter
            Effect.is_mutex = [] := by
  decide

/-- Claim C6, amended: no run of `ble_packet_scanner_run` ever acquires or
releases a mutex, so no mutex is held at any point of the run, in particular
not during the notification or the delay; a poll makes the calls get rssi,
stop packet test, log, send `EVENT_UPDATE_DISPLAY` in this order, and `rssi`
and `packet_count` are written only by the two sampling statements, which
precede the notification. -/
theorem run_never_takes_lock (mem : BlePacketScannerApp) (vd mtx : Nat) (acts : List Action) :
    (∀ x ∈ (run_exec acts (run_init mem vd)).trace, Effect.is_mutex x = false)
      ∧ lock_held mtx (run_exec acts (run_init mem vd)).trace = false
      ∧ (∀ (rssi_ret count_ret : Int) (app : BlePacketScannerApp),
          (poll_once rssi_ret count_ret app).2
            = [Effect.furi_hal_bt_get_rssi, Effect.furi_hal_bt_stop_packet_test,
               Effect.furi_log_i (to_uint8 rssi_ret) (to_uint16 count_ret),
               Effect.view_dispatcher_send_custom_event app.view_dispatcher
                 EVENT_UPDATE_DISPLAY])
      ∧ (∀ (hal_ret : Int) (s : RunState),
          ((prog_step hal_ret s).app.rssi ≠ s.app.rssi
            ∨ (prog_step hal_ret s).app.packet_count ≠ s.app.packet_count) →
          s.loc = Loc.get_rssi ∨ s.loc = Loc.stop_packet_test) := by
  have hinit : ∀ x ∈ (run_init mem vd).trace, Effect.is_mutex x = false := by
    intro x hx
    simp [run_init, ble_packet_scanner_app_init] at hx
    rcases hx with hx | hx <;> rw [hx] <;> rfl
  have hall := run_exec_no_mutex acts (run_init mem vd) hinit
  exact ⟨hall, lock_held_of_no_mutex mtx _ hall, fun _ _ _ => rfl,
    fun hal_ret s h => statistics_written_at_sampling hal_ret s h⟩

/-- Evaluation of `run_never_takes_lock` on the third statement of a run,
which writes `rssi`: it is the first sampling statement. -/
theorem run_never_takes_lock_witness :
    (run_exec [Action.prog 0, Action.prog 0] (run_init blank_mem 7)).loc = Loc.get_rssi
      ∨ (run_exec [Action.prog 0, Action.prog 0] (run_init blank_mem 7)).loc
          = Loc.stop_packet_test :=
  (run_never_takes_lock blank_mem 7 0 []).2.2.2 (-40)
    (run_exec [Action.prog 0, Action.prog 0] (run_init blank_mem 7)) (by decide)

end BleReciever

/-! ## The run loop: a stop request -/

namespace BleReciever

theorem callback_step_loc (event : Nat) (s : RunState) :
    (callback_step event s).loc = s.loc := rfl

theorem callback_stop_idle (s : RunState) :
    (callback_step EVENT_STOP s).app.is_scanning = false := by
  cases hs : s.app.is_scanning <;>
    simp [callback_step, ble_packet_scanner_custom_event_callback, ble_packet_scanner_stop, hs]

/-- One step of the run from an Idle app at a control point of the loop or
after it: the app stays Idle, a statement of the program moves one statement
closer to the return, and every call made is paid for by the calls that
remained to be made before the return. -/
theorem idle_step (a : Action) (s : RunState) (hidle : s.app.is_scanning = false)
    (hloc : s.loc ≠ Loc.start_call) :
    (run_step a s).app.is_scanning = false
      ∧ (run_step a s).loc ≠ Loc.start_call
      ∧ (run_step a s).loc.rank = s.loc.rank - (if a.is_prog = true then 1 else 0)
      ∧ ∃ e, (run_step a s).trace = s.trace ++ e
          ∧ e.count Effect.furi_hal_bt_get_rssi
              + (if 9 ≤ (run_step a s).loc.rank then 1 else 0)
              ≤ (if 9 ≤ s.loc.rank then 1 else 0)
          ∧ e.count Effect.furi_hal_bt_stop_packet_test
              + (if 8 ≤ (run_step a s).loc.rank then 1 else 0)
              ≤ (if 8 ≤ s.loc.rank then 1 else 0)
          ∧ e.countP Effect.is_custom_event
              + (if 5 ≤ (run_step a s).loc.rank then 1 else 0)
              ≤ (if 5 ≤ s.loc.rank then 1 else 0)
          ∧ e.count (Effect.furi_delay_ms 500)
              + (if 4 ≤ (run_step a s).loc.rank then 1 else 0)
              ≤ (if 4 ≤ s.loc.rank then 1 else 0)
          ∧ e.countP Effect.is_radio_switch = 0 := by
  cases s with
  | mk loc app trace =>
    simp only at hidle hloc
    cases a with
    | prog hal_ret =>
      cases loc <;>
        simp [run_step, prog_step, ble_packet_scanner_stop, Loc.rank, Action.is_prog,
          Effect.is_custom_event, Effect.is_radio_switch, hidle] at hloc ⊢
    | callback event =>
      by_cases hev : event = EVENT_STOP <;>
        simp [run_step, callback_step, ble_packet_scanner_custom_event_callback,
          ble_packet_scanner_stop, hev, Action.is_prog, hloc, hidle]

/-- Every run from an Idle app at a control point of the loop or after it: the
app stays Idle, the statements executed lead to the return, and the calls made
are at most those of the iteration in flight. -/
theorem idle_exec (acts : List Action) (s : RunState) (hidle : s.app.is_scanning = false)
    (hloc : s.loc ≠ Loc.start_call) :
    (run_exec acts s).app.is_scanning = false
      ∧ (run_exec acts s).loc.rank = s.loc.rank - acts.countP Action.is_prog
      ∧ ∃ e, (run_exec acts s).trace = s.trace ++ e
          ∧ e.count Effect.furi_hal_bt_get_rssi ≤ (if 9 ≤ s.loc.rank then 1 else 0)
          ∧ e.count Effect.furi_hal_bt_stop_packet_test ≤ (if 8 ≤ s.loc.rank then 1 else 0)
          ∧ e.countP Effect.is_custom_event ≤ (if 5 ≤ s.loc.rank then 1 else 0)
          ∧ e.count (Effect.furi_delay_ms 500) ≤ (if 4 ≤ s.loc.rank then 1 else 0)
          ∧ e.countP Effect.is_radio_switch = 0 := by
  induction acts generalizing s with
  | nil =>
    refine ⟨hidle, by simp [run_exec], [], by simp [run_exec], ?_, ?_, ?_, ?_, ?_⟩ <;> simp
  | cons a acts ih =>
    obtain ⟨h1, h2, h3, e1, he1, c1, c2, c3, c4, c5⟩ := idle_step a s hidle hloc
    obtain ⟨k1, k2, e2, he2, d1, d2, d3, d4, d5⟩ := ih (run_step a s) h1 h2
    refine ⟨k1, ?_, e1 ++ e2, ?_, ?_, ?_, ?_, ?_, ?_⟩
    · simp only [run_exec, List.countP_cons]
      rw [k2, h3]
      omega
    · simp only [run_exec]
      rw [he2, he1, List.append_assoc]
    · rw [List.count_append]
      omega
    · rw [List.count_append]
      omega
    · rw [List.countP_append]
      omega
    · rw [List.count_append]
      omega
    · rw [List.countP_append]
      omega

/-- Claim C10: in the run loop, with the callback delivered at any point, the
first statement of a poll is reached only from the test of the loop with
`is_scanning` set, and a callback does not move the control point.  Once
`EVENT_STOP` has been handled at a control point `s.loc` of the loop or after
it, the app is Idle and stays Idle under every further sequence `acts` of
statements and callbacks; the calls `e` made after the stop contain at most
one get rssi, one stop packet test, one custom event and one delay (those of
the iteration in flight), none of them when the stop was handled between two
polls or after the loop, and no call that switches the receiver on or off (so
the trailing `ble_packet_scanner_stop` makes no call); and after ten
statements the run has returned. -/
theorem stop_request_ends_loop (s : RunState) (acts : List Action)
    (hloc : s.loc ≠ Loc.start_call) :
    (∀ (hal_ret : Int) (t : RunState), (prog_step hal_ret t).loc = Loc.get_rssi →
        t.loc = Loc.loop_check ∧ t.app.is_scanning = true)
      ∧ (∀ (event : Nat) (t : RunState), (callback_step event t).loc = t.loc)
      ∧ (callback_step EVENT_STOP s).app.is_scanning = false
      ∧ (run_exec acts (callback_step EVENT_STOP s)).app.is_scanning = false
      ∧ (∃ e, (run_exec acts (callback_step EVENT_STOP s)).trace
              = (callback_step EVENT_STOP s).trace ++ e
          ∧ e.count Effect.furi_hal_bt_get_rssi ≤ 1
          ∧ e.count Effect.furi_hal_bt_stop_packet_test ≤ 1
          ∧ e.countP Effect.is_custom_event ≤ 1
          ∧ e.count (Effect.furi_delay_ms 500) ≤ 1
          ∧ e.countP Effect.is_radio_switch = 0
          ∧ (s.loc.between_polls = true →
              e.count Effect.furi_hal_bt_get_rssi = 0
                ∧ e.count Effect.furi_hal_bt_stop_packet_test = 0
                ∧ e.countP Effect.is_custom_event = 0
                ∧ e.count (Effect.furi_delay_ms 500) = 0))
      ∧ (10 ≤ acts.countP Action.is_prog →
          (run_exec acts (callback_step EVENT_STOP s)).loc = Loc.returned) := by
  have hidle := callback_stop_idle s
  have hloc1 : (callback_step EVENT_STOP s).loc ≠ Loc.start_call := hloc
  obtain ⟨k1, k2, e, he, d1, d2, d3, d4, d5⟩ :=
    idle_exec acts (callback_step EVENT_STOP s) hidle hloc1
  have hrank : (callback_step EVENT_STOP s).loc.rank = s.loc.rank := rfl
  rw [hrank] at k2 d1 d2 d3 d4
  have hbound : s.loc.rank ≤ 9 := by
    cases s with
    | mk loc app trace => cases loc <;> simp [Loc.rank] at hloc ⊢
  refine ⟨fun hal_ret t h => body_entered_from_check hal_ret t h, fun _ _ => rfl, hidle, k1,
    ⟨e, he, ?_, ?_, ?_, ?_, d5, ?_⟩, ?_⟩
  · split at d1 <;> omega
  · split at d2 <;> omega
  · split at d3 <;> omega
  · split at d4 <;> omega
  · intro hb
    have hsmall : s.loc.rank ≤ 3 := by
      cases s with
      | mk loc app trace => cases loc <;> simp [Loc.rank, Loc.between_polls] at hb ⊢
    rw [if_neg (by omega)] at d1 d2 d3 d4
    omega
  · intro hten
    have hzero : (run_exec acts (callback_step EVENT_STOP s)).loc.rank = 0 := by omega
    generalize (run_exec acts (callback_step EVENT_STOP s)).loc = l at hzero
    cases l <;> simp [Loc.rank] at hzero ⊢

/-- Evaluation of `stop_request_ends_loop` on a run in which `EVENT_STOP`
arrives after the first sampling statement of the first iteration: ten
further statements, with another callback among them, end the run. -/
theorem stop_request_ends_loop_witness :
    (run_exec
        [Action.prog 1, Action.prog 0, Action.prog 0, Action.callback 2, Action.prog 0,
         Action.prog 0, Action.prog 0, Action.prog 0, Action.prog 0, Action.prog 0,
         Action.prog 0]
        (callback_step EVENT_STOP
          (run_exec [Action.prog 0, Action.prog 0, Action.prog (-40)]
            (run_init blank_mem 7)))).loc = Loc.returned :=
  (stop_request_ends_loop
      (run_exec [Action.prog 0, Action.prog 0, Action.prog (-40)] (run_init blank_mem 7))
      [Action.prog 1, Action.prog 0, Action.prog 0, Action.callback 2, Action.prog 0,
       Action.prog 0, Action.prog 0, Action.prog 0, Action.prog 0, Action.prog 0,
       Action.prog 0]
      (by decide)).2.2.2.2.2 (by decide)

end BleReciever
